import Mathlib

/-!
Verification of the CVERE 16-bit virtual-machine toolchain (Go backend,
`backend/go/simulator`): the executor (`vm.go`), the two-pass assembler
(`assembler.go`) and the disassembler (`disassembler.go`).

The Go code is embedded shallowly: 16-bit machine integers become `Nat`
with explicit `% 65536` where wraparound matters, Go's `int`/`int64`
arithmetic becomes `Int`, the register file and memory become functions
`Nat → Nat` (the Go arrays `[16]uint16` and `[32768]uint16`), fallible
operations return `Except`/`EncResult`, and a Go runtime panic (out of
range slice index) is modelled by the distinguished `EncResult.oob`
constructor.
-/

namespace Simulator

/-- Functional update, modelling assignment into a Go array (`a[i] = v`). -/
def setIdx (f : Nat → Nat) (i v : Nat) : Nat → Nat :=
  fun j => if j = i then v else f j

/-- The VM state of `vm.go`.  `Registers i` is meaningful for `i < 16` and
holds a `uint16` value; `Memory w` is meaningful for word indices
`w < 32768` and holds a `uint16` value. -/
structure VM where
  Registers : Nat → Nat
  PC : Nat
  SP : Nat
  LR : Nat
  SR : Nat
  Memory : Nat → Nat
  Halted : Bool
  CycleCount : Nat

/-- `NewVM`: zero state except `PC = 0`, `SP = 0xFFFE` (Go zero values for
the remaining fields). -/
def NewVM : VM :=
  { Registers := fun _ => 0
    PC := 0
    SP := 0xFFFE
    LR := 0
    SR := 0
    Memory := fun _ => 0
    Halted := false
    CycleCount := 0 }

/-- `(vm *VM) Fetch()`: if `vm.PC/2 >= len(vm.Memory)` (= 32768) the word
`0xFFFF` is substituted and the PC is not incremented; otherwise the word at
word index `PC/2` is read and the PC advances by 2 (`uint16` wraparound). -/
def Fetch (vm : VM) : Nat × VM :=
  if 32768 ≤ vm.PC / 2 then (0xFFFF, vm)
  else (vm.Memory (vm.PC / 2), { vm with PC := (vm.PC + 2) % 65536 })

/-- `(vm *VM) UpdateFlags(result uint16)` acting on the SR value:
`SR &= 0xFFF0` (clearing the low four bits of the 16-bit SR, written here as
`sr / 16 * 16`), then set bit 0 (Zero) iff `result == 0` and bit 1
(Negative) iff `result & 0x8000 != 0` (bit 15, written `result / 32768 % 2`). -/
def UpdateFlags (sr result : Nat) : Nat :=
  let sr0 := sr / 16 * 16
  let sr1 := if result = 0 then sr0 + 1 else sr0
  if result / 32768 % 2 = 1 then sr1 + 2 else sr1

/-- `(vm *VM) UpdateFlagsWithCarry(result uint32)`: flags of the truncated
16-bit result (`uint16(result)` is `result % 65536`), then set bit 2 (Carry)
iff `result > 0xFFFF`. -/
def UpdateFlagsWithCarry (sr result : Nat) : Nat :=
  let sr1 := UpdateFlags sr (result % 65536)
  if 65535 < result then sr1 + 4 else sr1

/-- LOAD/STORE effective word index `(vm.Registers[rs] + uint16(offset)*2) / 2`:
the byte address is formed with `uint16` wraparound, then divided by 2. -/
def effWordIndex (base offset : Nat) : Nat :=
  (base + offset * 2) % 65536 / 2

/-- The decode-and-dispatch body of `(vm *VM) Step()` (`vm.go`), acting on
the already-fetched word after the cycle-counter increment.
Field extraction mirrors the Go shifts and masks:
`opcode = (i >> 12) & 0xF` is `i / 4096 % 16`, `rd = (i >> 8) & 0xF` is
`i / 256 % 16`, `rs = (i >> 4) & 0xF` is `i / 16 % 16`, `rt = i & 0xF` and
`offset = i & 0xF` are `i % 16`, `imm8 = i & 0xFF` is `i % 256`, and
`addr12 = i & 0xFFF` is `i % 4096`.  Register values are `uint16`, so all
arithmetic results are reduced `% 65536` exactly where Go truncates:
the `uint32` sums of ADD/ADDI are kept exact for the carry test and
truncated on writeback; SUB wraps (`x - y` on `uint16` is
`(x + 65536 - y) % 65536`); NOT is the `uint16` complement
(`^x = x ^^^ 65535`); SHL truncates; branch targets are computed in `Int`
(Go `int32`) and narrowed to `uint16` by `% 65536`. -/
def execute (vm : VM) (instruction : Nat) : Except String VM :=
    let opcode := instruction / 4096 % 16
    let rd := instruction / 256 % 16
    let rs := instruction / 16 % 16
    let rt := instruction % 16
    let imm8 := instruction % 256
    let offset := instruction % 16
    let addr12 := instruction % 4096
    match opcode with
    | 0 => -- NOP
      Except.ok vm
    | 1 => -- ADD
      let result := vm.Registers rs + vm.Registers rt
      Except.ok { vm with
        Registers := setIdx (setIdx vm.Registers rd (result % 65536)) 0 0
        SR := UpdateFlagsWithCarry vm.SR result }
    | 2 => -- ADDI
      let result := vm.Registers rd + imm8
      Except.ok { vm with
        Registers := setIdx (setIdx vm.Registers rd (result % 65536)) 0 0
        SR := UpdateFlagsWithCarry vm.SR result }
    | 3 => -- SUB
      let result := (vm.Registers rs + 65536 - vm.Registers rt) % 65536
      Except.ok { vm with
        Registers := setIdx (setIdx vm.Registers rd result) 0 0
        SR := UpdateFlags vm.SR result }
    | 4 => -- AND
      let result := vm.Registers rs &&& vm.Registers rt
      Except.ok { vm with
        Registers := setIdx (setIdx vm.Registers rd result) 0 0
        SR := UpdateFlags vm.SR result }
    | 5 => -- OR
      let result := vm.Registers rs ||| vm.Registers rt
      Except.ok { vm with
        Registers := setIdx (setIdx vm.Registers rd result) 0 0
        SR := UpdateFlags vm.SR result }
    | 6 => -- XOR
      let result := vm.Registers rs ^^^ vm.Registers rt
      Except.ok { vm with
        Registers := setIdx (setIdx vm.Registers rd result) 0 0
        SR := UpdateFlags vm.SR result }
    | 7 => -- NOT
      let result := vm.Registers rs ^^^ 65535
      Except.ok { vm with
        Registers := setIdx (setIdx vm.Registers rd result) 0 0
        SR := UpdateFlags vm.SR result }
    | 8 => -- SHL
      let shift := vm.Registers rt % 16
      let result := vm.Registers rs * 2 ^ shift % 65536
      Except.ok { vm with
        Registers := setIdx (setIdx vm.Registers rd result) 0 0
        SR := UpdateFlags vm.SR result }
    | 9 => -- SHR
      let shift := vm.Registers rt % 16
      let result := vm.Registers rs / 2 ^ shift
      Except.ok { vm with
        Registers := setIdx (setIdx vm.Registers rd result) 0 0
        SR := UpdateFlags vm.SR result }
    | 10 => -- LOAD
      let address := effWordIndex (vm.Registers rs) offset
      if address < 32768 then
        Except.ok { vm with
          Registers := setIdx (setIdx vm.Registers rd (vm.Memory address)) 0 0 }
      else Except.ok vm
    | 11 => -- STORE
      let address := effWordIndex (vm.Registers rs) offset
      if address < 32768 then
        Except.ok { vm with Memory := setIdx vm.Memory address (vm.Registers rd) }
      else Except.ok vm
    | 12 => -- LOADI (sign extend: imm8 | 0xFF00 when bit 7 is set)
      let value := if 128 ≤ imm8 then imm8 + 0xFF00 else imm8
      Except.ok { vm with Registers := setIdx (setIdx vm.Registers rd value) 0 0 }
    | 13 => -- JMP
      Except.ok { vm with PC := addr12 }
    | 14 => -- BEQ
      let signedOffset : Int := if 128 ≤ imm8 then (imm8 : Int) - 256 else (imm8 : Int)
      if vm.Registers rd = 0 then
        Except.ok { vm with PC := (((vm.PC : Int) + signedOffset * 2) % 65536).toNat }
      else Except.ok vm
    | 15 => -- BNE or HALT
      if instruction = 0xFFFF then Except.ok { vm with Halted := true }
      else
        let signedOffset : Int := if 128 ≤ imm8 then (imm8 : Int) - 256 else (imm8 : Int)
        if vm.Registers rd ≠ 0 then
          Except.ok { vm with PC := (((vm.PC : Int) + signedOffset * 2) % 65536).toNat }
        else Except.ok vm
    | _ => Except.error "unknown opcode"

/-- `(vm *VM) Step()` proper: refuse to step a halted VM, fetch (with the PC
increment), bump the cycle counter, then dispatch on the fetched word via
`execute`. -/
def Step (vm0 : VM) : Except String VM :=
  if vm0.Halted then Except.error "VM is halted"
  else
    let fetched := Fetch vm0
    let vm := { fetched.2 with CycleCount := fetched.2.CycleCount + 1 }
    execute vm fetched.1

/-- `(vm *VM) Reset()`: zeroes the registers and the special registers,
restores `SP = 0xFFFE`, clears the halt flag and the cycle counter.
The Go method does not touch `vm.Memory`. -/
def Reset (vm : VM) : VM :=
  { vm with
    Registers := fun _ => 0
    PC := 0
    SP := 0xFFFE
    LR := 0
    SR := 0
    Halted := false
    CycleCount := 0 }

/-!  ## Assembler (`assembler.go`)

Go string manipulation is embedded at the character-list level (all the
separators used by the assembler — `\n`, `;`, `:`, `,` and white space —
are single ASCII characters, so `strings.Split`, `strings.SplitN`,
`strings.Index` and `strings.Fields` become structural recursions over
`List Char`). -/

/-- ASCII subset of Go `unicode.IsSpace` (space, `\t`, `\n`, `\v`, `\f`, `\r`). -/
def isSpace (c : Char) : Bool :=
  c = ' ' || c = '\t' || c = '\n' || c = '\r' || c.toNat = 11 || c.toNat = 12

/-- Go `strings.TrimSpace`. -/
def trimChars (cs : List Char) : List Char :=
  ((cs.dropWhile fun c => isSpace c).reverse.dropWhile fun c => isSpace c).reverse

/-- Split at every occurrence of a one-character separator
(Go `strings.Split` with a single-character separator). -/
def splitOnChar (sep : Char) : List Char → List (List Char)
  | [] => [[]]
  | c :: rest =>
    if c = sep then [] :: splitOnChar sep rest
    else
      match splitOnChar sep rest with
      | [] => [[c]]
      | g :: gs => (c :: g) :: gs

/-- Split at the first occurrence of a one-character separator
(Go `strings.SplitN(s, sep, 2)`); when the separator is absent the whole
input is the first component. -/
def splitFirst (sep : Char) : List Char → List Char × List Char
  | [] => ([], [])
  | c :: rest =>
    if c = sep then ([], rest)
    else
      let p := splitFirst sep rest
      (c :: p.1, p.2)

/-- Go `strings.Fields`: maximal runs of non-space characters. -/
def fieldsAux : List Char → List Char → List (List Char)
  | acc, [] => if acc.isEmpty then [] else [acc.reverse]
  | acc, c :: rest =>
    if isSpace c then
      if acc.isEmpty then fieldsAux [] rest
      else acc.reverse :: fieldsAux [] rest
    else fieldsAux (c :: acc) rest

/-- Go `strings.Fields` over a character list. -/
def fieldsOf (cs : List Char) : List (List Char) := fieldsAux [] cs

/-- ASCII upper-casing of one character (Go `strings.ToUpper` on the ASCII
source texts the assembler receives). -/
def upperChar (c : Char) : Char :=
  if 'a' ≤ c ∧ c ≤ 'z' then Char.ofNat (c.toNat - 32) else c

/-- Go `strings.ToUpper` over a character list. -/
def upperChars (cs : List Char) : List Char := cs.map upperChar

/-- Digit value used by Go `strconv` (`0`-`9`, then letters from 10 up,
case-insensitive); 99 marks an invalid character (no base ever reaches it). -/
def digitVal (c : Char) : Nat :=
  if '0' ≤ c ∧ c ≤ '9' then c.toNat - '0'.toNat
  else if 'a' ≤ c ∧ c ≤ 'z' then c.toNat - 'a'.toNat + 10
  else if 'A' ≤ c ∧ c ≤ 'Z' then c.toNat - 'A'.toNat + 10
  else 99

/-- Accumulate digits in the given base; `none` on the first character that
is not a digit of the base (Go `strconv` syntax error). -/
def parseDigitsAux (base : Nat) (acc : Nat) : List Char → Option Nat
  | [] => some acc
  | c :: cs =>
    if digitVal c < base then parseDigitsAux base (acc * base + digitVal c) cs
    else none

/-- Go `strconv.ParseUint` digit scan: the empty string and any invalid
digit are syntax errors (`none`). -/
def goParseUint (base : Nat) : List Char → Option Nat
  | [] => none
  | cs => parseDigitsAux base 0 cs

/-- Go `strconv.ParseInt(s, base, bitSize)` with the returned error
discarded, exactly as the assembler does (`val, _ := strconv.ParseInt(...)`):
a syntax error (empty string, bad digit) yields 0, and an out-of-range value
is clamped to the signed `bitSize`-bit bounds (the value Go returns together
with `ErrRange`).  An optional leading `+` or `-` is consumed first. -/
def goParseInt (cs : List Char) (base bitSize : Nat) : Int :=
  let cutoff : Nat := 2 ^ (bitSize - 1)
  let signAndDigits : Bool × List Char :=
    match cs with
    | '+' :: rest => (false, rest)
    | '-' :: rest => (true, rest)
    | rest => (false, rest)
  match goParseUint base signAndDigits.2 with
  | none => 0
  | some m =>
    if signAndDigits.1 then
      if cutoff < m then -(cutoff : Int) else -(m : Int)
    else
      if cutoff ≤ m then (cutoff : Int) - 1 else (m : Int)

/-- `(a *Assembler) parseRegister(reg string) uint8`: upper-case, strip the
`R` prefix, parse the rest as hex via `ParseInt(_, 16, 32)` (error ignored),
then convert to `uint8` (`% 256` on the two's-complement value).  Anything
without an `R` prefix yields 0. -/
def parseRegister (reg : String) : Nat :=
  match upperChars reg.toList with
  | 'R' :: rest => ((goParseInt rest 16 32) % 256).toNat
  | _ => 0

/-- `(a *Assembler) parseImmediate(imm string) int`: trim, then hex after
`0x`/`0X`, binary after `0b`/`0B` (both `ParseInt(_, _, 32)`), otherwise
decimal via `strconv.Atoi` (64-bit `int`); all parse errors are ignored. -/
def parseImmediate (imm : String) : Int :=
  match trimChars imm.toList with
  | '0' :: 'X' :: rest => goParseInt rest 16 32
  | '0' :: 'x' :: rest => goParseInt rest 16 32
  | '0' :: 'B' :: rest => goParseInt rest 2 32
  | '0' :: 'b' :: rest => goParseInt rest 2 32
  | cs => goParseInt cs 10 64

/-- Result of a Go function that can return an error — or panic.
`ok` is a normal return, `err` a returned `error` value, and `oob` models a
runtime panic (out-of-range slice index), which is not an error return. -/
inductive EncResult (α : Type) where
  | ok (val : α)
  | err (msg : String)
  | oob (msg : String)
  deriving DecidableEq

def EncResult.bind {α β : Type} : EncResult α → (α → EncResult β) → EncResult β
  | .ok v, f => f v
  | .err m, _ => .err m
  | .oob m, _ => .oob m

instance : Monad EncResult where
  pure := EncResult.ok
  bind := EncResult.bind

/-- Go slice indexing `xs[i]`: an out-of-range index is a runtime panic. -/
def atIdx (xs : List String) (i : Nat) : EncResult String :=
  match xs.get? i with
  | some s => .ok s
  | none => .oob "index out of range"

/-- The `Instruction` record produced by the first pass. -/
structure AsmInstr where
  Label : String
  Opcode : String
  Operands : List String
  Address : Nat

/-- The `Opcodes` table of `assembler.go`. -/
def Opcodes : List (String × Nat) :=
  [("NOP", 0x0), ("ADD", 0x1), ("ADDI", 0x2), ("SUB", 0x3), ("AND", 0x4),
   ("OR", 0x5), ("XOR", 0x6), ("NOT", 0x7), ("SHL", 0x8), ("SHR", 0x9),
   ("LOAD", 0xA), ("STORE", 0xB), ("LOADI", 0xC), ("JMP", 0xD), ("BEQ", 0xE),
   ("BNE", 0xF), ("HALT", 0xFF)]

/-- First-match lookup in an association list.  The label table is built by
consing the newest binding in front, so first-match lookup realises the
overwrite semantics of the Go map assignment `a.Labels[label] = a.Address`. -/
def lookupStr (m : List (String × Nat)) (k : String) : Option Nat :=
  match m with
  | [] => none
  | (k', v) :: rest => if k' = k then some v else lookupStr rest k

/-- `uint16` subtraction with wraparound (`a - b` on Go `uint16`). -/
def u16sub (a b : Nat) : Nat := (a % 65536 + 65536 - b % 65536) % 65536

/-- Reinterpretation of a `uint16` bit pattern as Go `int16`. -/
def int16Of (n : Nat) : Int :=
  if n % 65536 < 32768 then (n % 65536 : Int) else (n % 65536 : Int) - 65536

/-- `(a *Assembler) encodeInstruction(instr Instruction) (uint16, error)`.
The word is assembled as in Go,
`uint16(opcode)<<12 | uint16(rd)<<8 | uint16(rs)<<4 | uint16(rt)` etc.;
the shifts are written as multiplications (every operand is below 2^16, so
the `uint16` arithmetic is exact) and `|` is `|||`.  Go `int` masking of the
parsed immediates (`& 0xFF`, `& 0xF`) and the narrowing `uint16(...)` are
the two's-complement residues `% 256`, `% 16`, `% 65536` on `Int`.  For
BEQ/BNE label targets the Go offset `uint16(int16(labelAddr-instr.Address-2) / 2)`
becomes `((int16Of (u16sub (u16sub labelAddr addr) 2)).tdiv 2) % 65536`
(`Int.tdiv` is Go's truncated signed division).  Operand access
`instr.Operands[i]` goes through `atIdx` and panics (`oob`) when the operand
list is too short, as the Go slice index does. -/
def encodeInstruction (labels : List (String × Nat)) (instr : AsmInstr) :
    EncResult Nat :=
  match lookupStr Opcodes instr.Opcode with
  | none => .err ("unknown opcode: " ++ instr.Opcode)
  | some opcode =>
    if instr.Opcode = "NOP" then .ok 0x0000
    else if instr.Opcode = "HALT" then .ok 0xFFFF
    else if instr.Opcode = "ADD" ∨ instr.Opcode = "SUB" ∨ instr.Opcode = "AND" ∨
            instr.Opcode = "OR" ∨ instr.Opcode = "XOR" ∨ instr.Opcode = "SHL" ∨
            instr.Opcode = "SHR" then do
      let s0 ← atIdx instr.Operands 0
      let s1 ← atIdx instr.Operands 1
      let s2 ← atIdx instr.Operands 2
      let rd := parseRegister s0
      let rs := parseRegister s1
      let rt := parseRegister s2
      pure (opcode * 4096 ||| rd * 256 ||| rs * 16 ||| rt)
    else if instr.Opcode = "NOT" then do
      let s0 ← atIdx instr.Operands 0
      let s1 ← atIdx instr.Operands 1
      let rd := parseRegister s0
      let rs := parseRegister s1
      pure (opcode * 4096 ||| rd * 256 ||| rs * 16)
    else if instr.Opcode = "ADDI" ∨ instr.Opcode = "LOADI" then do
      let s0 ← atIdx instr.Operands 0
      let s1 ← atIdx instr.Operands 1
      let rd := parseRegister s0
      let imm := ((parseImmediate s1) % 256).toNat
      pure (opcode * 4096 ||| rd * 256 ||| imm)
    else if instr.Opcode = "LOAD" ∨ instr.Opcode = "STORE" then do
      let s0 ← atIdx instr.Operands 0
      let s1 ← atIdx instr.Operands 1
      let s2 ← atIdx instr.Operands 2
      let rd := parseRegister s0
      let rs := parseRegister s1
      let offset := ((parseImmediate s2) % 16).toNat
      pure (opcode * 4096 ||| rd * 256 ||| rs * 16 ||| offset)
    else if instr.Opcode = "JMP" then do
      let s0 ← atIdx instr.Operands 0
      let addr : Nat :=
        match lookupStr labels s0 with
        | some labelAddr => labelAddr
        | none => ((parseImmediate s0) % 65536).toNat
      pure (opcode * 4096 ||| addr % 4096)
    else if instr.Opcode = "BEQ" ∨ instr.Opcode = "BNE" then do
      let s0 ← atIdx instr.Operands 0
      let s1 ← atIdx instr.Operands 1
      let rc := parseRegister s0
      let offset : Nat :=
        match lookupStr labels s1 with
        | some labelAddr =>
          (((int16Of (u16sub (u16sub labelAddr instr.Address) 2)).tdiv 2) % 65536).toNat
        | none => ((parseImmediate s1) % 65536).toNat
      pure (opcode * 4096 ||| rc * 256 ||| offset % 256)
    else .err ("cannot encode instruction: " ++ instr.Opcode)

/-- One line of the first pass: strip the comment (`strings.Index(line, ";")`
and slice), trim, skip blank lines, register a leading label at the current
address, and append an `Instruction` record, advancing the address by 2
(`uint16` arithmetic).  State is (label table, instruction list, address). -/
def parseLine (st : List (String × Nat) × List AsmInstr × Nat)
    (rawLine : List Char) : List (String × Nat) × List AsmInstr × Nat :=
  let labels := st.1
  let instrs := st.2.1
  let address := st.2.2
  let line := trimChars (rawLine.takeWhile fun c => c ≠ ';')
  if line = [] then (labels, instrs, address)
  else
    let afterLabel :=
      if line.contains ':' then
        let p := splitFirst ':' line
        let label := trimChars p.1
        ((String.mk label, address) :: labels, String.mk label, trimChars p.2)
      else (labels, "", line)
    let labels := afterLabel.1
    let label := afterLabel.2.1
    let line := afterLabel.2.2
    if line = [] then (labels, instrs, address)
    else
      match fieldsOf line with
      | [] => (labels, instrs, address)
      | w :: ws =>
        let opcode := String.mk (upperChars w)
        let operands :=
          if ws.length > 0 then
            ((splitOnChar ',' (ws.foldl (fun acc p => acc ++ p) [])).map
              fun cs => String.mk (trimChars cs))
          else []
        (labels,
         instrs ++ [{ Label := label, Opcode := opcode, Operands := operands,
                      Address := address }],
         (address + 2) % 65536)

/-- `(a *Assembler) firstPass(source string)`: split on `\n`, fold
`parseLine`; returns the label table and the instruction list. -/
def firstPass (source : String) : List (String × Nat) × List AsmInstr :=
  let st := (splitOnChar '\n' source.toList).foldl parseLine ([], [], 0)
  (st.1, st.2.1)

/-- `(a *Assembler) secondPass()`: encode each record in order, stopping at
the first error (or propagating a panic). -/
def secondPass (labels : List (String × Nat)) : List AsmInstr → EncResult (List Nat)
  | [] => .ok []
  | i :: rest => do
    let w ← encodeInstruction labels i
    let ws ← secondPass labels rest
    pure (w :: ws)

/-- `(a *Assembler) Assemble(source string)`: the two passes. -/
def Assemble (source : String) : EncResult (List Nat) :=
  let fp := firstPass source
  secondPass fp.1 fp.2

/-!  ## Disassembler (`disassembler.go`) -/

/-- Uppercase hex digit. -/
def hexCharOf (n : Nat) : Char :=
  if n = 0 then '0' else if n = 1 then '1' else if n = 2 then '2'
  else if n = 3 then '3' else if n = 4 then '4' else if n = 5 then '5'
  else if n = 6 then '6' else if n = 7 then '7' else if n = 8 then '8'
  else if n = 9 then '9' else if n = 10 then 'A' else if n = 11 then 'B'
  else if n = 12 then 'C' else if n = 13 then 'D' else if n = 14 then 'E'
  else 'F'

/-- Hex digits of `n`, most significant first (empty for 0); the fuel bounds
the recursion and is ample for the 16-bit values being printed. -/
def goHexCore : Nat → Nat → List Char
  | 0, _ => []
  | fuel + 1, n => if n = 0 then [] else goHexCore fuel (n / 16) ++ [hexCharOf (n % 16)]

/-- Go `fmt.Sprintf("%X", n)`: minimal uppercase hex. -/
def goHexMin (n : Nat) : String :=
  if n = 0 then "0" else String.mk (goHexCore 8 n)

/-- Go `fmt.Sprintf("%0wX", n)`: uppercase hex zero-padded to width `w`. -/
def goHexPad (w n : Nat) : String :=
  let s := goHexMin n
  String.mk (List.replicate (w - s.length) '0') ++ s

/-- Reinterpretation of the low byte as Go `int8` (used for `int8(imm8)`). -/
def int8Of (n : Nat) : Int :=
  if n % 256 < 128 then (n % 256 : Int) else (n % 256 : Int) - 256

/-- One record of the disassembler output. -/
structure DisassembledInstruction where
  Address : Nat
  MachineCode : Nat
  Mnemonic : String
  Operands : String
  Comment : String

/-- `(d *Disassembler) disassembleInstruction(instruction, address uint16)`:
`0x0000` and `0xFFFF` are recognised whole-word first; otherwise the top
nibble is dispatched, and only opcodes 1, 2, 3, C, D, E, F are decoded —
every other opcode falls to the `UNKNOWN_%X` placeholder.  The operand text
mirrors the Go `fmt.Sprintf` formats (`R%X`, `0x%02X`, `0x%03X`, signed
decimal `%d` of `int8(imm8)`). -/
def disassembleInstruction (instruction address : Nat) : DisassembledInstruction :=
  if instruction = 0x0000 then
    { Address := address, MachineCode := instruction, Mnemonic := "NOP",
      Operands := "", Comment := "No operation" }
  else if instruction = 0xFFFF then
    { Address := address, MachineCode := instruction, Mnemonic := "HALT",
      Operands := "", Comment := "Stop execution" }
  else
    let opcode := instruction / 4096 % 16
    let rd := instruction / 256 % 16
    let rs := instruction / 16 % 16
    let rt := instruction % 16
    let imm8 := instruction % 256
    let addr12 := instruction % 4096
    match opcode with
    | 1 =>
      { Address := address, MachineCode := instruction, Mnemonic := "ADD",
        Operands := "R" ++ goHexMin rd ++ ", R" ++ goHexMin rs ++ ", R" ++ goHexMin rt,
        Comment := "R" ++ goHexMin rd ++ " = R" ++ goHexMin rs ++ " + R" ++ goHexMin rt }
    | 2 =>
      { Address := address, MachineCode := instruction, Mnemonic := "ADDI",
        Operands := "R" ++ goHexMin rd ++ ", 0x" ++ goHexPad 2 imm8,
        Comment := "R" ++ goHexMin rd ++ " = R" ++ goHexMin rd ++ " + 0x" ++ goHexPad 2 imm8 }
    | 3 =>
      { Address := address, MachineCode := instruction, Mnemonic := "SUB",
        Operands := "R" ++ goHexMin rd ++ ", R" ++ goHexMin rs ++ ", R" ++ goHexMin rt,
        Comment := "R" ++ goHexMin rd ++ " = R" ++ goHexMin rs ++ " - R" ++ goHexMin rt }
    | 12 =>
      { Address := address, MachineCode := instruction, Mnemonic := "LOADI",
        Operands := "R" ++ goHexMin rd ++ ", 0x" ++ goHexPad 2 imm8,
        Comment := "R" ++ goHexMin rd ++ " = 0x" ++ goHexPad 2 imm8 }
    | 13 =>
      { Address := address, MachineCode := instruction, Mnemonic := "JMP",
        Operands := "0x" ++ goHexPad 3 addr12,
        Comment := "PC = 0x" ++ goHexPad 3 addr12 }
    | 14 =>
      { Address := address, MachineCode := instruction, Mnemonic := "BEQ",
        Operands := "R" ++ goHexMin rd ++ ", " ++ toString (int8Of imm8),
        Comment := "Branch if zero" }
    | 15 =>
      { Address := address, MachineCode := instruction, Mnemonic := "BNE",
        Operands := "R" ++ goHexMin rd ++ ", " ++ toString (int8Of imm8),
        Comment := "Branch if not zero" }
    | _ =>
      { Address := address, MachineCode := instruction,
        Mnemonic := "UNKNOWN_" ++ goHexMin opcode,
        Operands := "",
        Comment := "Unknown opcode: 0x" ++ goHexMin opcode }

/-- `(d *Disassembler) Disassemble(machineCode []uint16, startAddress uint16)`:
one record per word, addresses advancing by 2 with `uint16` wraparound. -/
def Disassemble (machineCode : List Nat) (startAddress : Nat) :
    List DisassembledInstruction :=
  (machineCode.foldl
    (fun (st : List DisassembledInstruction × Nat) w =>
      (st.1 ++ [disassembleInstruction w st.2], (st.2 + 2) % 65536))
    ([], startAddress)).1

/-!  ## Helper lemmas -/

/-- The low nibble of `UpdateFlags` holds only the Z and N bits: bit 2
(Carry) and bit 3 come out 0, and bits 4 and above are copied from the old
SR. -/
theorem updateFlags_bits (sr result : Nat) :
    UpdateFlags sr result % 2 = (if result = 0 then 1 else 0) ∧
    UpdateFlags sr result / 2 % 2 = (if result / 32768 % 2 = 1 then 1 else 0) ∧
    UpdateFlags sr result / 4 % 2 = 0 ∧
    UpdateFlags sr result / 8 % 2 = 0 ∧
    UpdateFlags sr result / 16 = sr / 16 := by
  refine ⟨?_, ?_, ?_, ?_, ?_⟩ <;> simp only [UpdateFlags] <;>
    split <;> split <;> omega

/-- Bit layout of `UpdateFlagsWithCarry`: Z iff the truncated result is 0,
N iff its bit 15 is set, C iff the untruncated result exceeds `0xFFFF`,
bit 3 is 0, and bits 4 and above are copied from the old SR. -/
theorem updateFlagsWithCarry_bits (sr result : Nat) :
    (UpdateFlagsWithCarry sr result % 2 = 1 ↔ result % 65536 = 0) ∧
    (UpdateFlagsWithCarry sr result / 2 % 2 = 1 ↔ result % 65536 / 32768 = 1) ∧
    (UpdateFlagsWithCarry sr result / 4 % 2 = 1 ↔ 65535 < result) ∧
    UpdateFlagsWithCarry sr result / 8 % 2 = 0 ∧
    UpdateFlagsWithCarry sr result / 16 = sr / 16 := by
  have h := updateFlags_bits sr (result % 65536)
  simp only [UpdateFlagsWithCarry]
  constructor
  · split <;> [skip; skip] <;> (obtain ⟨h1, h2, h3, h4, h5⟩ := h; split at h1 <;> omega)
  constructor
  · split <;> (obtain ⟨h1, h2, h3, h4, h5⟩ := h; split at h2 <;> omega)
  refine ⟨?_, ?_, ?_⟩ <;> obtain ⟨h1, h2, h3, h4, h5⟩ := h <;> split <;> omega

/-- Writing the architectural zero register last really leaves R0 at 0. -/
theorem setIdx_zero (f : Nat → Nat) (i v : Nat) :
    setIdx (setIdx f i v) 0 0 0 = 0 := by
  simp [setIdx]

/-!  ## Claim C4 — Reset -/

/-- A state with nonzero memory, visible to `Reset`. -/
def claim4cexVM : VM :=
  { Registers := fun _ => 9
    PC := 7
    SP := 3
    LR := 1
    SR := 2
    Memory := fun _ => 5
    Halted := true
    CycleCount := 11 }

/-- C4, counterexample: the claim says every memory word equals 0 after
`reset`, but `Reset` leaves memory untouched — here word 0 still holds 5. -/
theorem claim4_reset_cex : (Reset claim4cexVM).Memory 0 = 5 ∧ (5 : Nat) ≠ 0 :=
  ⟨rfl, by decide⟩

/-- C4, amended: for every executor state, `reset` yields all 16 registers 0,
PC=0, SP=0xFFFE, LR=0, SR=0, halted=false, cycle counter 0 — but memory is
left exactly as it was, not zeroed. -/
theorem claim4_reset_amended (vm : VM) :
    (∀ i, (Reset vm).Registers i = 0) ∧
    (Reset vm).PC = 0 ∧ (Reset vm).SP = 0xFFFE ∧ (Reset vm).LR = 0 ∧
    (Reset vm).SR = 0 ∧ (Reset vm).Halted = false ∧
    (Reset vm).CycleCount = 0 ∧ (Reset vm).Memory = vm.Memory :=
  ⟨fun _ => rfl, rfl, rfl, rfl, rfl, rfl, rfl, rfl⟩

/-!  ## Claim C5 — R0 invariant -/

/-- Every arm of the opcode dispatch preserves R0 = 0: the register-writing
arms clobber R0 back to 0 and the others leave the register file alone. -/
theorem execute_r0 (vm v : VM) (inst : Nat) (h0 : vm.Registers 0 = 0)
    (hs : execute vm inst = Except.ok v) : v.Registers 0 = 0 := by
  simp only [execute] at hs
  split at hs <;> try split at hs <;> try split at hs
  all_goals first
    | exact Except.noConfusion hs
    | (rw [Except.ok.injEq] at hs; subst hs;
       first | exact h0 | simp [setIdx])

/-- C5: if R0 = 0 before a successful step then R0 = 0 after it, whatever
the instruction (every register-writing path of `Step` clobbers R0 back to
0); so R0 = 0 is an invariant of every state reachable from `NewVM`. -/
theorem claim5_r0_invariant (vm v : VM) (h0 : vm.Registers 0 = 0)
    (hs : Step vm = Except.ok v) : v.Registers 0 = 0 := by
  simp only [Step, Fetch] at hs
  split at hs
  · exact Except.noConfusion hs
  · by_cases hg : 32768 ≤ vm.PC / 2
    · rw [if_pos hg] at hs
      refine execute_r0 _ v _ ?_ hs
      exact h0
    · rw [if_neg hg] at hs
      refine execute_r0 _ v _ ?_ hs
      exact h0

/-- A non-halted step with an in-range PC fetches `Memory (PC/2)`, advances
the PC by 2, bumps the cycle counter, and dispatches. -/
theorem step_norm (vm : VM) (hh : vm.Halted = false) (hg : ¬ 32768 ≤ vm.PC / 2) :
    Step vm = execute
      { vm with PC := (vm.PC + 2) % 65536, CycleCount := vm.CycleCount + 1 }
      (vm.Memory (vm.PC / 2)) := by
  simp only [Step, Fetch, hh, Bool.false_eq_true, if_false, if_neg hg]

/-- The post-state of one NOP step from `NewVM`. -/
def claim5wPost : VM :=
  { Registers := fun _ => 0
    PC := 2
    SP := 0xFFFE
    LR := 0
    SR := 0
    Memory := fun _ => 0
    Halted := false
    CycleCount := 1 }

/-- C5, witness: one concrete step (NOP from the initial state). -/
theorem claim5_r0_witness : claim5wPost.Registers 0 = 0 :=
  claim5_r0_invariant NewVM claim5wPost rfl rfl

/-!  ## Claim C9 — HALT frame -/

/-- Executing the reserved word `0xFFFF` only sets the halt flag. -/
theorem execute_halt (vm1 : VM) :
    execute vm1 0xFFFF = Except.ok { vm1 with Halted := true } := rfl

/-- C9: from any non-halted state whose fetched word is `0xFFFF`, one step
halts, sets PC to the pre-fetch PC plus 2 (16-bit), increments the cycle
counter, and leaves registers, SP, LR, SR, and memory unchanged. -/
theorem claim9_halt_frame (vm v : VM) (hh : vm.Halted = false)
    (hpc : vm.PC < 65536) (hm : vm.Memory (vm.PC / 2) = 0xFFFF)
    (hs : Step vm = Except.ok v) :
    v.Halted = true ∧ v.PC = (vm.PC + 2) % 65536 ∧
    v.Registers = vm.Registers ∧ v.SP = vm.SP ∧ v.LR = vm.LR ∧
    v.SR = vm.SR ∧ v.Memory = vm.Memory ∧
    v.CycleCount = vm.CycleCount + 1 := by
  rw [step_norm vm hh (by omega), hm, execute_halt, Except.ok.injEq] at hs
  subst hs
  exact ⟨rfl, rfl, rfl, rfl, rfl, rfl, rfl, rfl⟩

/-- Initial-like state whose memory is filled with the HALT word. -/
def claim9wVM : VM :=
  { Registers := fun _ => 0
    PC := 0
    SP := 0xFFFE
    LR := 0
    SR := 0
    Memory := fun _ => 0xFFFF
    Halted := false
    CycleCount := 0 }

/-- The state after executing that HALT. -/
def claim9wPost : VM :=
  { Registers := fun _ => 0
    PC := 2
    SP := 0xFFFE
    LR := 0
    SR := 0
    Memory := fun _ => 0xFFFF
    Halted := true
    CycleCount := 1 }

/-- C9, witness: the concrete HALT step. -/
theorem claim9_halt_witness :
    claim9wPost.Halted = true ∧ claim9wPost.PC = (claim9wVM.PC + 2) % 65536 ∧
    claim9wPost.Registers = claim9wVM.Registers ∧
    claim9wPost.SP = claim9wVM.SP ∧ claim9wPost.LR = claim9wVM.LR ∧
    claim9wPost.SR = claim9wVM.SR ∧ claim9wPost.Memory = claim9wVM.Memory ∧
    claim9wPost.CycleCount = claim9wVM.CycleCount + 1 :=
  claim9_halt_frame claim9wVM claim9wPost rfl (by decide) rfl rfl

/-!  ## Claim C10 — range guards are dead code -/

/-- C10: for a 16-bit PC the word index `PC/2` is below 32768, so `Fetch`
always takes the normal branch (never substitutes `0xFFFF`), and the
LOAD/STORE word index is below 32768 for every base and offset, so no
memory access is ever suppressed. -/
theorem claim10_guards (vm : VM) (base offset : Nat) (hpc : vm.PC < 65536) :
    vm.PC / 2 < 32768 ∧
    Fetch vm = (vm.Memory (vm.PC / 2), { vm with PC := (vm.PC + 2) % 65536 }) ∧
    effWordIndex base offset < 32768 := by
  refine ⟨by omega, ?_, by simp only [effWordIndex]; omega⟩
  rw [Fetch, if_neg (by omega)]

/-- C10, witness: the initial state. -/
theorem claim10_guards_witness :
    NewVM.PC / 2 < 32768 ∧
    Fetch NewVM = (NewVM.Memory (NewVM.PC / 2),
      { NewVM with PC := (NewVM.PC + 2) % 65536 }) ∧
    effWordIndex 0 0 < 32768 :=
  claim10_guards NewVM 0 0 (by decide)

/-!  ## Claim C2 — flags of the logical and shift instructions -/

/-- The Z and N bits of `UpdateFlags` as iff characterisations: Z holds iff
the result is 0, N holds iff bit 15 of the result is set. -/
theorem updateFlags_iff (sr result : Nat) :
    (UpdateFlags sr result % 2 = 1 ↔ result = 0) ∧
    (UpdateFlags sr result / 2 % 2 = 1 ↔ result / 32768 % 2 = 1) := by
  obtain ⟨h1, h2, -, -, -⟩ := updateFlags_bits sr result
  constructor
  · split at h1 <;> omega
  · split at h2 <;> omega

/-- The AND arm (opcode 4). -/
theorem execute_and (vm : VM) (inst : Nat) (h : inst / 4096 % 16 = 4) :
    execute vm inst = Except.ok { vm with
      Registers := setIdx (setIdx vm.Registers (inst / 256 % 16)
        (vm.Registers (inst / 16 % 16) &&& vm.Registers (inst % 16))) 0 0
      SR := UpdateFlags vm.SR
        (vm.Registers (inst / 16 % 16) &&& vm.Registers (inst % 16)) } := by
  simp only [execute, h]

/-- The OR arm (opcode 5). -/
theorem execute_or (vm : VM) (inst : Nat) (h : inst / 4096 % 16 = 5) :
    execute vm inst = Except.ok { vm with
      Registers := setIdx (setIdx vm.Registers (inst / 256 % 16)
        (vm.Registers (inst / 16 % 16) ||| vm.Registers (inst % 16))) 0 0
      SR := UpdateFlags vm.SR
        (vm.Registers (inst / 16 % 16) ||| vm.Registers (inst % 16)) } := by
  simp only [execute, h]

/-- The XOR arm (opcode 6). -/
theorem execute_xor (vm : VM) (inst : Nat) (h : inst / 4096 % 16 = 6) :
    execute vm inst = Except.ok { vm with
      Registers := setIdx (setIdx vm.Registers (inst / 256 % 16)
        (vm.Registers (inst / 16 % 16) ^^^ vm.Registers (inst % 16))) 0 0
      SR := UpdateFlags vm.SR
        (vm.Registers (inst / 16 % 16) ^^^ vm.Registers (inst % 16)) } := by
  simp only [execute, h]

/-- The NOT arm (opcode 7). -/
theorem execute_not (vm : VM) (inst : Nat) (h : inst / 4096 % 16 = 7) :
    execute vm inst = Except.ok { vm with
      Registers := setIdx (setIdx vm.Registers (inst / 256 % 16)
        (vm.Registers (inst / 16 % 16) ^^^ 65535)) 0 0
      SR := UpdateFlags vm.SR (vm.Registers (inst / 16 % 16) ^^^ 65535) } := by
  simp only [execute, h]

/-- The SHL arm (opcode 8). -/
theorem execute_shl (vm : VM) (inst : Nat) (h : inst / 4096 % 16 = 8) :
    execute vm inst = Except.ok { vm with
      Registers := setIdx (setIdx vm.Registers (inst / 256 % 16)
        (vm.Registers (inst / 16 % 16) *
          2 ^ (vm.Registers (inst % 16) % 16) % 65536)) 0 0
      SR := UpdateFlags vm.SR
        (vm.Registers (inst / 16 % 16) *
          2 ^ (vm.Registers (inst % 16) % 16) % 65536) } := by
  simp only [execute, h]

/-- The SHR arm (opcode 9). -/
theorem execute_shr (vm : VM) (inst : Nat) (h : inst / 4096 % 16 = 9) :
    execute vm inst = Except.ok { vm with
      Registers := setIdx (setIdx vm.Registers (inst / 256 % 16)
        (vm.Registers (inst / 16 % 16) /
          2 ^ (vm.Registers (inst % 16) % 16))) 0 0
      SR := UpdateFlags vm.SR
        (vm.Registers (inst / 16 % 16) /
          2 ^ (vm.Registers (inst % 16) % 16)) } := by
  simp only [execute, h]

/-- A state with the carry bit set about to execute `AND R1, R1, R1`
(`0x4111`). -/
def claim2cexVM : VM :=
  { Registers := fun _ => 0
    PC := 0
    SP := 0xFFFE
    LR := 0
    SR := 4
    Memory := fun _ => 0x4111
    Halted := false
    CycleCount := 0 }

/-- C2, counterexample: the carry bit (bit 2 of SR) is 1 before the AND step
and 0 after it — `UpdateFlags` clears C rather than preserving it. -/
theorem claim2_flags_cex :
    claim2cexVM.SR / 4 % 2 = 1 ∧
    (Step claim2cexVM).map (fun w => w.SR / 4 % 2) = Except.ok 0 :=
  ⟨rfl, rfl⟩

/-- C2, amended: a logical or shift step (AND, OR, XOR, NOT, SHL, SHR)
rewrites only the low four bits of SR — Z is set iff the 16-bit result of
the operation is 0 and N iff its bit 15 is set, while the C bit (bit 2),
like bit 3, is cleared to 0 regardless of its pre-state value; bits 4 and
above are preserved. -/
theorem claim2_flags_amended (vm v : VM) (hh : vm.Halted = false)
    (hpc : vm.PC < 65536)
    (h4 : 4 ≤ vm.Memory (vm.PC / 2) / 4096 % 16)
    (h9 : vm.Memory (vm.PC / 2) / 4096 % 16 ≤ 9)
    (hs : Step vm = Except.ok v) :
    let inst := vm.Memory (vm.PC / 2)
    let result :=
      if inst / 4096 % 16 = 4 then
        vm.Registers (inst / 16 % 16) &&& vm.Registers (inst % 16)
      else if inst / 4096 % 16 = 5 then
        vm.Registers (inst / 16 % 16) ||| vm.Registers (inst % 16)
      else if inst / 4096 % 16 = 6 then
        vm.Registers (inst / 16 % 16) ^^^ vm.Registers (inst % 16)
      else if inst / 4096 % 16 = 7 then
        vm.Registers (inst / 16 % 16) ^^^ 65535
      else if inst / 4096 % 16 = 8 then
        vm.Registers (inst / 16 % 16) * 2 ^ (vm.Registers (inst % 16) % 16) % 65536
      else
        vm.Registers (inst / 16 % 16) / 2 ^ (vm.Registers (inst % 16) % 16)
    (v.SR % 2 = 1 ↔ result = 0) ∧
    (v.SR / 2 % 2 = 1 ↔ result / 32768 % 2 = 1) ∧
    v.SR / 4 % 2 = 0 ∧ v.SR / 8 % 2 = 0 ∧ v.SR / 16 = vm.SR / 16 := by
  intro inst result
  rw [step_norm vm hh (by omega)] at hs
  have hcase : inst / 4096 % 16 = 4 ∨ inst / 4096 % 16 = 5 ∨
      inst / 4096 % 16 = 6 ∨ inst / 4096 % 16 = 7 ∨
      inst / 4096 % 16 = 8 ∨ inst / 4096 % 16 = 9 := by omega
  rcases hcase with hk | hk | hk | hk | hk | hk
  · rw [execute_and _ _ hk, Except.ok.injEq] at hs
    subst hs
    have hres : result =
        vm.Registers (inst / 16 % 16) &&& vm.Registers (inst % 16) := by
      simp [result, hk]
    rw [hres]
    obtain ⟨z, n⟩ := updateFlags_iff vm.SR
      (vm.Registers (inst / 16 % 16) &&& vm.Registers (inst % 16))
    obtain ⟨-, -, c2, c3, chigh⟩ := updateFlags_bits vm.SR
      (vm.Registers (inst / 16 % 16) &&& vm.Registers (inst % 16))
    exact ⟨z, n, c2, c3, chigh⟩
  · rw [execute_or _ _ hk, Except.ok.injEq] at hs
    subst hs
    have hres : result =
        vm.Registers (inst / 16 % 16) ||| vm.Registers (inst % 16) := by
      simp [result, hk]
    rw [hres]
    obtain ⟨z, n⟩ := updateFlags_iff vm.SR
      (vm.Registers (inst / 16 % 16) ||| vm.Registers (inst % 16))
    obtain ⟨-, -, c2, c3, chigh⟩ := updateFlags_bits vm.SR
      (vm.Registers (inst / 16 % 16) ||| vm.Registers (inst % 16))
    exact ⟨z, n, c2, c3, chigh⟩
  · rw [execute_xor _ _ hk, Except.ok.injEq] at hs
    subst hs
    have hres : result =
        vm.Registers (inst / 16 % 16) ^^^ vm.Registers (inst % 16) := by
      simp [result, hk]
    rw [hres]
    obtain ⟨z, n⟩ := updateFlags_iff vm.SR
      (vm.Registers (inst / 16 % 16) ^^^ vm.Registers (inst % 16))
    obtain ⟨-, -, c2, c3, chigh⟩ := updateFlags_bits vm.SR
      (vm.Registers (inst / 16 % 16) ^^^ vm.Registers (inst % 16))
    exact ⟨z, n, c2, c3, chigh⟩
  · rw [execute_not _ _ hk, Except.ok.injEq] at hs
    subst hs
    have hres : result = vm.Registers (inst / 16 % 16) ^^^ 65535 := by
      simp [result, hk]
    rw [hres]
    obtain ⟨z, n⟩ := updateFlags_iff vm.SR (vm.Registers (inst / 16 % 16) ^^^ 65535)
    obtain ⟨-, -, c2, c3, chigh⟩ := updateFlags_bits vm.SR
      (vm.Registers (inst / 16 % 16) ^^^ 65535)
    exact ⟨z, n, c2, c3, chigh⟩
  · rw [execute_shl _ _ hk, Except.ok.injEq] at hs
    subst hs
    have hres : result = vm.Registers (inst / 16 % 16) *
        2 ^ (vm.Registers (inst % 16) % 16) % 65536 := by
      simp [result, hk]
    rw [hres]
    obtain ⟨z, n⟩ := updateFlags_iff vm.SR
      (vm.Registers (inst / 16 % 16) * 2 ^ (vm.Registers (inst % 16) % 16) % 65536)
    obtain ⟨-, -, c2, c3, chigh⟩ := updateFlags_bits vm.SR
      (vm.Registers (inst / 16 % 16) * 2 ^ (vm.Registers (inst % 16) % 16) % 65536)
    exact ⟨z, n, c2, c3, chigh⟩
  · rw [execute_shr _ _ hk, Except.ok.injEq] at hs
    subst hs
    have hres : result = vm.Registers (inst / 16 % 16) /
        2 ^ (vm.Registers (inst % 16) % 16) := by
      simp [result, hk]
    rw [hres]
    obtain ⟨z, n⟩ := updateFlags_iff vm.SR
      (vm.Registers (inst / 16 % 16) / 2 ^ (vm.Registers (inst % 16) % 16))
    obtain ⟨-, -, c2, c3, chigh⟩ := updateFlags_bits vm.SR
      (vm.Registers (inst / 16 % 16) / 2 ^ (vm.Registers (inst % 16) % 16))
    exact ⟨z, n, c2, c3, chigh⟩

/-- The state after the AND step of `claim2cexVM`. -/
def claim2wPost : VM :=
  { Registers := setIdx (setIdx (fun _ => 0) 1 (0 &&& 0)) 0 0
    PC := 2
    SP := 0xFFFE
    LR := 0
    SR := UpdateFlags 4 (0 &&& 0)
    Memory := fun _ => 0x4111
    Halted := false
    CycleCount := 1 }

/-- C2, witness: the concrete AND step with C set beforehand. -/
theorem claim2_flags_witness :
    (let inst := claim2cexVM.Memory (claim2cexVM.PC / 2)
     let result :=
       if inst / 4096 % 16 = 4 then
         claim2cexVM.Registers (inst / 16 % 16) &&& claim2cexVM.Registers (inst % 16)
       else if inst / 4096 % 16 = 5 then
         claim2cexVM.Registers (inst / 16 % 16) ||| claim2cexVM.Registers (inst % 16)
       else if inst / 4096 % 16 = 6 then
         claim2cexVM.Registers (inst / 16 % 16) ^^^ claim2cexVM.Registers (inst % 16)
       else if inst / 4096 % 16 = 7 then
         claim2cexVM.Registers (inst / 16 % 16) ^^^ 65535
       else if inst / 4096 % 16 = 8 then
         claim2cexVM.Registers (inst / 16 % 16) *
           2 ^ (claim2cexVM.Registers (inst % 16) % 16) % 65536
       else
         claim2cexVM.Registers (inst / 16 % 16) /
           2 ^ (claim2cexVM.Registers (inst % 16) % 16)
     (claim2wPost.SR % 2 = 1 ↔ result = 0) ∧
     (claim2wPost.SR / 2 % 2 = 1 ↔ result / 32768 % 2 = 1) ∧
     claim2wPost.SR / 4 % 2 = 0 ∧ claim2wPost.SR / 8 % 2 = 0 ∧
     claim2wPost.SR / 16 = claim2cexVM.SR / 16) :=
  claim2_flags_amended claim2cexVM claim2wPost rfl (by decide) (by decide)
    (by decide) rfl

/-!  ## Claim C8 — arithmetic flags -/

/-- The ADD arm (opcode 1): sum of `rs` and `rt`, truncated writeback,
flags with carry. -/
theorem execute_add (vm : VM) (inst : Nat) (h : inst / 4096 % 16 = 1) :
    execute vm inst = Except.ok { vm with
      Registers := setIdx (setIdx vm.Registers (inst / 256 % 16)
        ((vm.Registers (inst / 16 % 16) + vm.Registers (inst % 16)) % 65536)) 0 0
      SR := UpdateFlagsWithCarry vm.SR
        (vm.Registers (inst / 16 % 16) + vm.Registers (inst % 16)) } := by
  simp only [execute, h]

/-- The ADDI arm (opcode 2): `rd` plus the zero-extended `imm8`. -/
theorem execute_addi (vm : VM) (inst : Nat) (h : inst / 4096 % 16 = 2) :
    execute vm inst = Except.ok { vm with
      Registers := setIdx (setIdx vm.Registers (inst / 256 % 16)
        ((vm.Registers (inst / 256 % 16) + inst % 256) % 65536)) 0 0
      SR := UpdateFlagsWithCarry vm.SR
        (vm.Registers (inst / 256 % 16) + inst % 256) } := by
  simp only [execute, h]

/-- C8: for any pre-state with 16-bit register contents about to execute an
ADD or ADDI, the step succeeds, Z is set iff the 16-bit result is 0, N iff
bit 15 of the result is set, C iff the unsigned 32-bit expansion of the
operation exceeds 0xFFFF, and (for a nonzero destination index) the
destination register receives the truncated result — so from R3 = 0xFFFF,
`ADDI R3, 0x01` yields R3 = 0, Z=1, N=0, C=1. -/
theorem claim8_arith_flags (vm : VM) (hh : vm.Halted = false)
    (hpc : vm.PC < 65536) (_hreg : ∀ i, vm.Registers i < 65536)
    (hop : vm.Memory (vm.PC / 2) / 4096 % 16 = 1 ∨
           vm.Memory (vm.PC / 2) / 4096 % 16 = 2) :
    let inst := vm.Memory (vm.PC / 2)
    let result := if inst / 4096 % 16 = 1
      then vm.Registers (inst / 16 % 16) + vm.Registers (inst % 16)
      else vm.Registers (inst / 256 % 16) + inst % 256
    ∃ v, Step vm = Except.ok v ∧
      (v.SR % 2 = 1 ↔ result % 65536 = 0) ∧
      (v.SR / 2 % 2 = 1 ↔ result % 65536 / 32768 = 1) ∧
      (v.SR / 4 % 2 = 1 ↔ 65535 < result) ∧
      (inst / 256 % 16 ≠ 0 → v.Registers (inst / 256 % 16) = result % 65536) := by
  intro inst result
  rw [step_norm vm hh (by omega)]
  rcases hop with h | h
  · rw [execute_add _ _ h]
    refine ⟨_, rfl, ?_⟩
    have hres : result = vm.Registers (inst / 16 % 16) + vm.Registers (inst % 16) := by
      simp only [result, if_pos h]
    obtain ⟨b0, b1, b2, -, -⟩ := updateFlagsWithCarry_bits vm.SR
      (vm.Registers (inst / 16 % 16) + vm.Registers (inst % 16))
    rw [hres]
    refine ⟨b0, b1, b2, fun hrd => ?_⟩
    simp [setIdx, hrd]
  · rw [execute_addi _ _ h]
    refine ⟨_, rfl, ?_⟩
    have hres : result = vm.Registers (inst / 256 % 16) + inst % 256 := by
      simp only [result, h]
      norm_num
    obtain ⟨b0, b1, b2, -, -⟩ := updateFlagsWithCarry_bits vm.SR
      (vm.Registers (inst / 256 % 16) + inst % 256)
    rw [hres]
    refine ⟨b0, b1, b2, fun hrd => ?_⟩
    simp [setIdx, hrd]

/-- Scenario S3 of the specification: R3 = 0xFFFF, about to execute
`ADDI R3, 0x01` (`0x2301`). -/
def claim8wVM : VM :=
  { Registers := fun i => if i = 3 then 0xFFFF else 0
    PC := 0
    SP := 0xFFFE
    LR := 0
    SR := 0
    Memory := fun _ => 0x2301
    Halted := false
    CycleCount := 0 }

/-- C8, witness: the S3 scenario instantiates the theorem. -/
theorem claim8_arith_witness :
    (let inst := claim8wVM.Memory (claim8wVM.PC / 2)
     let result := if inst / 4096 % 16 = 1
       then claim8wVM.Registers (inst / 16 % 16) + claim8wVM.Registers (inst % 16)
       else claim8wVM.Registers (inst / 256 % 16) + inst % 256
     ∃ v, Step claim8wVM = Except.ok v ∧
       (v.SR % 2 = 1 ↔ result % 65536 = 0) ∧
       (v.SR / 2 % 2 = 1 ↔ result % 65536 / 32768 = 1) ∧
       (v.SR / 4 % 2 = 1 ↔ 65535 < result) ∧
       (inst / 256 % 16 ≠ 0 → v.Registers (inst / 256 % 16) = result % 65536)) :=
  claim8_arith_flags claim8wVM rfl (by decide)
    (fun i => by dsimp only [claim8wVM]; split <;> decide) (Or.inr (by decide))

/-!  ## Claim C3 — unknown label -/

/-- C3: assembling `JMP nowhere\nHALT` does not fail at all — the label
lookup misses, `parseImmediate("nowhere")` swallows the `strconv.Atoi`
syntax error and yields 0, and the assembler silently emits
`[0xD000, 0xFFFF]` instead of an UnknownLabel error. -/
theorem claim3_unknown_label :
    Assemble "JMP nowhere\nHALT" = EncResult.ok [0xD000, 0xFFFF] := rfl

/-!  ## Claim C7 — operand arity -/

/-- C7: encoding `ADD R1, R2` (two operands where ADD needs three) is not a
structured error but the out-of-range slice access `instr.Operands[2]`, a
runtime panic. -/
theorem claim7_arity :
    Assemble "ADD R1, R2\nHALT" = EncResult.oob "index out of range" := rfl

/-!  ## Claim C6 — branch offset range -/

/-- A source program whose BEQ jumps forward over 128 NOPs: the branch
offset is (258 − 0 − 2)/2 = 128, one past the largest signed 8-bit value. -/
def claim6src : String :=
  "BEQ R1, far\n" ++ String.join (List.replicate 128 "NOP\n") ++ "far: HALT"

set_option maxRecDepth 100000 in
/-- C6, counterexample: the offset 128 lies outside −128..127, yet assembly
does not fail — it wraps the offset into the low byte (0x80) and returns
`0xE180` followed by the NOPs and the HALT. -/
theorem claim6_branch_cex :
    (int16Of (u16sub (u16sub 258 0) 2)).tdiv 2 = 128 ∧
    ¬((128 : Int) ≤ 127) ∧
    Assemble claim6src =
      EncResult.ok (0xE180 :: (List.replicate 128 0 ++ [0xFFFF])) :=
  ⟨by decide, by decide, rfl⟩

/-- Disjoint bitwise or is addition (wrapper around `Nat.mul_add_lt_is_or`
that lets the high part be given in product form). -/
theorem lor_eq_add (a b i : Nat) (hb : b < 2 ^ i) (x : Nat) (hx : x = 2 ^ i * a) :
    x ||| b = x + b := by
  subst hx
  exact (Nat.mul_add_lt_is_or hb a).symm

/-- The two-field instruction words (`op<<12 | rd<<8 | imm8`) as a sum. -/
theorem encode_word_3 (op rd imm : Nat) (hrd : rd < 16) (himm : imm < 256) :
    op * 4096 ||| rd * 256 ||| imm = op * 4096 + rd * 256 + imm := by
  rw [lor_eq_add op (rd * 256) 12 (by omega) _ (by ring),
      lor_eq_add (op * 16 + rd) imm 8 (by omega) _ (by ring)]

/-- The three-register instruction words as a sum. -/
theorem encode_word_4 (op rd rs rt : Nat) (hrd : rd < 16) (hrs : rs < 16)
    (hrt : rt < 16) :
    op * 4096 ||| rd * 256 ||| rs * 16 ||| rt =
      op * 4096 + rd * 256 + rs * 16 + rt := by
  rw [lor_eq_add op (rd * 256) 12 (by omega) _ (by ring),
      lor_eq_add (op * 16 + rd) (rs * 16) 8 (by omega) _ (by ring),
      lor_eq_add (op * 256 + rd * 16 + rs) rt 4 (by omega) _ (by ring)]

/-- The JMP word (`op<<12 | addr12`) as a sum. -/
theorem encode_word_jmp (op addr : Nat) (ha : addr < 4096) :
    op * 4096 ||| addr = op * 4096 + addr := by
  rw [lor_eq_add op addr 12 (by omega) _ (by ring)]

/-- C6, amended: for a BEQ or BNE whose target is a known label, the second
pass always succeeds; the low byte of the emitted word is the offset
`(target − (instruction_address + 2)) / 2`, computed in 16-bit two's
complement with truncated signed division and silently wrapped to 8 bits —
no range check is performed, offsets outside −128..127 wrap. -/
theorem claim6_branch_amended (labels : List (String × Nat)) (i : AsmInstr)
    (s0 s1 : String) (A : Nat)
    (hop : i.Opcode = "BEQ" ∨ i.Opcode = "BNE")
    (hops : i.Operands = [s0, s1])
    (hl : lookupStr labels s1 = some A)
    (hrc : parseRegister s0 < 16) :
    ∃ w, encodeInstruction labels i = EncResult.ok w ∧
      w % 256 = (((int16Of (u16sub (u16sub A i.Address) 2)).tdiv 2) % 256).toNat ∧
      w / 256 % 16 = parseRegister s0 ∧
      w / 4096 = (if i.Opcode = "BEQ" then 14 else 15) := by
  obtain ⟨lab, opc, ops, addr⟩ := i
  dsimp only at hop hops ⊢
  subst hops
  rcases hop with hB | hB <;> subst hB
  · have henc : encodeInstruction labels ⟨lab, "BEQ", [s0, s1], addr⟩ =
        EncResult.ok (14 * 4096 ||| parseRegister s0 * 256 |||
          ((match lookupStr labels s1 with
            | some labelAddr =>
              (((int16Of (u16sub (u16sub labelAddr addr) 2)).tdiv 2) % 65536).toNat
            | none => ((parseImmediate s1) % 65536).toNat) % 256)) := rfl
    rw [hl] at henc
    dsimp only at henc
    rw [encode_word_3 14 (parseRegister s0)
      ((((int16Of (u16sub (u16sub A addr) 2)).tdiv 2) % 65536).toNat % 256)
      hrc (by omega)] at henc
    refine ⟨_, henc, ?_, ?_, ?_⟩
    · generalize (int16Of (u16sub (u16sub A addr) 2)).tdiv 2 = d
      omega
    · generalize (int16Of (u16sub (u16sub A addr) 2)).tdiv 2 = d
      omega
    · rw [if_pos rfl]
      generalize (int16Of (u16sub (u16sub A addr) 2)).tdiv 2 = d
      omega
  · have henc : encodeInstruction labels ⟨lab, "BNE", [s0, s1], addr⟩ =
        EncResult.ok (15 * 4096 ||| parseRegister s0 * 256 |||
          ((match lookupStr labels s1 with
            | some labelAddr =>
              (((int16Of (u16sub (u16sub labelAddr addr) 2)).tdiv 2) % 65536).toNat
            | none => ((parseImmediate s1) % 65536).toNat) % 256)) := rfl
    rw [hl] at henc
    dsimp only at henc
    rw [encode_word_3 15 (parseRegister s0)
      ((((int16Of (u16sub (u16sub A addr) 2)).tdiv 2) % 65536).toNat % 256)
      hrc (by omega)] at henc
    refine ⟨_, henc, ?_, ?_, ?_⟩
    · generalize (int16Of (u16sub (u16sub A addr) 2)).tdiv 2 = d
      omega
    · generalize (int16Of (u16sub (u16sub A addr) 2)).tdiv 2 = d
      omega
    · rw [if_neg (by decide)]
      generalize (int16Of (u16sub (u16sub A addr) 2)).tdiv 2 = d
      omega

/-- The record form of `BEQ R1, loop` at address 6 with `loop` at address 2
(backward branch, offset −3). -/
def claim6wInstr : AsmInstr :=
  { Label := "", Opcode := "BEQ", Operands := ["R1", "loop"], Address := 6 }

/-- C6, witness: a backward in-range branch. -/
theorem claim6_branch_witness :
    ∃ w, encodeInstruction [("loop", 2)] claim6wInstr = EncResult.ok w ∧
      w % 256 =
        (((int16Of (u16sub (u16sub 2 claim6wInstr.Address) 2)).tdiv 2) % 256).toNat ∧
      w / 256 % 16 = parseRegister "R1" ∧
      w / 4096 = (if claim6wInstr.Opcode = "BEQ" then 14 else 15) :=
  claim6_branch_amended [("loop", 2)] claim6wInstr "R1" "loop" 2
    (Or.inl rfl) rfl rfl (by decide)

/-!  ## Claim C1 — assemble/disassemble round trip -/

/-- C1, counterexample: the program `AND R1, R2, R3` (no branches at all)
assembles to `0x4123`, but the disassembler does not decode opcode 4 and
emits the placeholder mnemonic `UNKNOWN_4` instead of `AND`; the same holds
for OR, XOR, NOT, SHL, SHR, LOAD and STORE. -/
theorem claim1_roundtrip_cex :
    Assemble "AND R1, R2, R3" = EncResult.ok [0x4123] ∧
    (Disassemble [0x4123] 0).map (fun d => d.Mnemonic) = ["UNKNOWN_4"] ∧
    "UNKNOWN_4" ≠ "AND" :=
  ⟨rfl, rfl, by decide⟩

/-- The premises under which the assemble→disassemble round trip preserves
one instruction record: its mnemonic is among those the disassembler
actually decodes (NOP, HALT, ADD, SUB, ADDI, LOADI, JMP, BEQ, BNE), its
operand shape matches the mnemonic, register operands parse below 16,
immediate and address operands lie within their field widths, the branch
offset (resolved from the label table or given numerically) fits in signed
8 bits, and a BNE does not encode to the reserved HALT word `0xFFFF`. -/
def goodForRoundTrip (labels : List (String × Nat)) (i : AsmInstr) : Prop :=
  (i.Opcode = "NOP") ∨
  (i.Opcode = "HALT") ∨
  ((i.Opcode = "ADD" ∨ i.Opcode = "SUB") ∧
    ∃ s0 s1 s2, i.Operands = [s0, s1, s2] ∧
      parseRegister s0 < 16 ∧ parseRegister s1 < 16 ∧ parseRegister s2 < 16) ∨
  ((i.Opcode = "ADDI" ∨ i.Opcode = "LOADI") ∧
    ∃ s0 s1, i.Operands = [s0, s1] ∧ parseRegister s0 < 16 ∧
      0 ≤ parseImmediate s1 ∧ parseImmediate s1 < 256) ∨
  (i.Opcode = "JMP" ∧
    ∃ s0, i.Operands = [s0] ∧
      ((∃ A, lookupStr labels s0 = some A ∧ A < 4096) ∨
       (lookupStr labels s0 = none ∧
         0 ≤ parseImmediate s0 ∧ parseImmediate s0 < 4096))) ∨
  ((i.Opcode = "BEQ" ∨ i.Opcode = "BNE") ∧
    ∃ s0 s1, i.Operands = [s0, s1] ∧ parseRegister s0 < 16 ∧
      ∃ d : Int,
        ((∃ A, lookupStr labels s1 = some A ∧
            (int16Of (u16sub (u16sub A i.Address) 2)).tdiv 2 = d) ∨
         (lookupStr labels s1 = none ∧ parseImmediate s1 = d)) ∧
        -128 ≤ d ∧ d ≤ 127 ∧
        ¬(i.Opcode = "BNE" ∧ parseRegister s0 = 15 ∧ d = -1))

/-- The operand values of a source instruction record, rendered exactly in
the disassembler's format (registers `R<hex>`, 8-bit immediates `0x<2 hex>`,
12-bit addresses `0x<3 hex>`, branch offsets in signed decimal): the
round-trip claim "same operand values up to formatting" compares the
disassembler's operand text against this rendering. -/
def sourceOperandText (labels : List (String × Nat)) (i : AsmInstr) : String :=
  if i.Opcode = "ADD" ∨ i.Opcode = "SUB" then
    match i.Operands with
    | [s0, s1, s2] =>
      "R" ++ goHexMin (parseRegister s0) ++ ", R" ++ goHexMin (parseRegister s1) ++
        ", R" ++ goHexMin (parseRegister s2)
    | _ => ""
  else if i.Opcode = "ADDI" ∨ i.Opcode = "LOADI" then
    match i.Operands with
    | [s0, s1] =>
      "R" ++ goHexMin (parseRegister s0) ++ ", 0x" ++
        goHexPad 2 (parseImmediate s1).toNat
    | _ => ""
  else if i.Opcode = "JMP" then
    match i.Operands with
    | [s0] =>
      "0x" ++ goHexPad 3
        (match lookupStr labels s0 with
         | some A => A
         | none => (parseImmediate s0).toNat)
    | _ => ""
  else if i.Opcode = "BEQ" ∨ i.Opcode = "BNE" then
    match i.Operands with
    | [s0, s1] =>
      "R" ++ goHexMin (parseRegister s0) ++ ", " ++
        toString (match lookupStr labels s1 with
          | some A => (int16Of (u16sub (u16sub A i.Address) 2)).tdiv 2
          | none => parseImmediate s1)
    | _ => ""
  else ""

/-- The ADD arm of the disassembler. -/
theorem disasm_add (w a : Nat) (h0 : w ≠ 0) (hF : w ≠ 65535)
    (hop : w / 4096 % 16 = 1) :
    disassembleInstruction w a =
      { Address := a, MachineCode := w, Mnemonic := "ADD",
        Operands := "R" ++ goHexMin (w / 256 % 16) ++ ", R" ++
          goHexMin (w / 16 % 16) ++ ", R" ++ goHexMin (w % 16),
        Comment := "R" ++ goHexMin (w / 256 % 16) ++ " = R" ++
          goHexMin (w / 16 % 16) ++ " + R" ++ goHexMin (w % 16) } := by
  simp only [disassembleInstruction, if_neg h0, if_neg hF, hop]

/-- The SUB arm of the disassembler. -/
theorem disasm_sub (w a : Nat) (h0 : w ≠ 0) (hF : w ≠ 65535)
    (hop : w / 4096 % 16 = 3) :
    disassembleInstruction w a =
      { Address := a, MachineCode := w, Mnemonic := "SUB",
        Operands := "R" ++ goHexMin (w / 256 % 16) ++ ", R" ++
          goHexMin (w / 16 % 16) ++ ", R" ++ goHexMin (w % 16),
        Comment := "R" ++ goHexMin (w / 256 % 16) ++ " = R" ++
          goHexMin (w / 16 % 16) ++ " - R" ++ goHexMin (w % 16) } := by
  simp only [disassembleInstruction, if_neg h0, if_neg hF, hop]

/-- The ADDI arm of the disassembler. -/
theorem disasm_addi (w a : Nat) (h0 : w ≠ 0) (hF : w ≠ 65535)
    (hop : w / 4096 % 16 = 2) :
    disassembleInstruction w a =
      { Address := a, MachineCode := w, Mnemonic := "ADDI",
        Operands := "R" ++ goHexMin (w / 256 % 16) ++ ", 0x" ++
          goHexPad 2 (w % 256),
        Comment := "R" ++ goHexMin (w / 256 % 16) ++ " = R" ++
          goHexMin (w / 256 % 16) ++ " + 0x" ++ goHexPad 2 (w % 256) } := by
  simp only [disassembleInstruction, if_neg h0, if_neg hF, hop]

/-- The LOADI arm of the disassembler. -/
theorem disasm_loadi (w a : Nat) (h0 : w ≠ 0) (hF : w ≠ 65535)
    (hop : w / 4096 % 16 = 12) :
    disassembleInstruction w a =
      { Address := a, MachineCode := w, Mnemonic := "LOADI",
        Operands := "R" ++ goHexMin (w / 256 % 16) ++ ", 0x" ++
          goHexPad 2 (w % 256),
        Comment := "R" ++ goHexMin (w / 256 % 16) ++ " = 0x" ++
          goHexPad 2 (w % 256) } := by
  simp only [disassembleInstruction, if_neg h0, if_neg hF, hop]

/-- The JMP arm of the disassembler. -/
theorem disasm_jmp (w a : Nat) (h0 : w ≠ 0) (hF : w ≠ 65535)
    (hop : w / 4096 % 16 = 13) :
    disassembleInstruction w a =
      { Address := a, MachineCode := w, Mnemonic := "JMP",
        Operands := "0x" ++ goHexPad 3 (w % 4096),
        Comment := "PC = 0x" ++ goHexPad 3 (w % 4096) } := by
  simp only [disassembleInstruction, if_neg h0, if_neg hF, hop]

/-- The BEQ arm of the disassembler. -/
theorem disasm_beq (w a : Nat) (h0 : w ≠ 0) (hF : w ≠ 65535)
    (hop : w / 4096 % 16 = 14) :
    disassembleInstruction w a =
      { Address := a, MachineCode := w, Mnemonic := "BEQ",
        Operands := "R" ++ goHexMin (w / 256 % 16) ++ ", " ++
          toString (int8Of (w % 256)),
        Comment := "Branch if zero" } := by
  simp only [disassembleInstruction, if_neg h0, if_neg hF, hop]

/-- The BNE arm of the disassembler. -/
theorem disasm_bne (w a : Nat) (h0 : w ≠ 0) (hF : w ≠ 65535)
    (hop : w / 4096 % 16 = 15) :
    disassembleInstruction w a =
      { Address := a, MachineCode := w, Mnemonic := "BNE",
        Operands := "R" ++ goHexMin (w / 256 % 16) ++ ", " ++
          toString (int8Of (w % 256)),
        Comment := "Branch if not zero" } := by
  simp only [disassembleInstruction, if_neg h0, if_neg hF, hop]

/-- C1, amended: the round trip preserves the mnemonic and the operand
values only for the instructions the disassembler decodes — NOP, HALT, ADD,
SUB, ADDI, LOADI, JMP, BEQ and BNE — with well-formed operands in field
range and excluding a BNE that encodes to the reserved HALT word.  For such
an instruction the second pass succeeds and the disassembled record carries
the same mnemonic and an operand text rendering exactly the source operand
values.  (AND, OR, XOR, NOT, SHL, SHR, LOAD and STORE assemble fine but
come back as `UNKNOWN_x`, as the counterexample shows.) -/
theorem claim1_roundtrip_amended (labels : List (String × Nat)) (i : AsmInstr)
    (a : Nat) (hg : goodForRoundTrip labels i) :
    ∃ w, encodeInstruction labels i = EncResult.ok w ∧
      (disassembleInstruction w a).Mnemonic = i.Opcode ∧
      (disassembleInstruction w a).Operands = sourceOperandText labels i := by
  obtain ⟨lab, opc, ops, addr⟩ := i
  unfold goodForRoundTrip at hg
  dsimp only at hg
  rcases hg with h | h | ⟨hO, s0, s1, s2, hops, h0, h1, h2⟩ |
    ⟨hO, s0, s1, hops, h0, hi0, hi1⟩ | ⟨hO, s0, hops, hcase⟩ |
    ⟨hO, s0, s1, hops, h0, d, hcase, hd0, hd1, hne⟩
  · -- NOP
    subst h
    exact ⟨0, rfl, rfl, rfl⟩
  · -- HALT
    subst h
    exact ⟨65535, rfl, rfl, rfl⟩
  · -- ADD / SUB
    subst hops
    rcases hO with hB | hB <;> subst hB
    · have henc : encodeInstruction labels ⟨lab, "ADD", [s0, s1, s2], addr⟩ =
          EncResult.ok (1 * 4096 ||| parseRegister s0 * 256 |||
            parseRegister s1 * 16 ||| parseRegister s2) := rfl
      rw [encode_word_4 _ _ _ _ h0 h1 h2] at henc
      refine ⟨_, henc, ?_⟩
      rw [disasm_add _ a (by omega) (by omega) (by omega)]
      have e0 : (1 * 4096 + parseRegister s0 * 256 + parseRegister s1 * 16 +
          parseRegister s2) / 256 % 16 = parseRegister s0 := by omega
      have e1 : (1 * 4096 + parseRegister s0 * 256 + parseRegister s1 * 16 +
          parseRegister s2) / 16 % 16 = parseRegister s1 := by omega
      have e2 : (1 * 4096 + parseRegister s0 * 256 + parseRegister s1 * 16 +
          parseRegister s2) % 16 = parseRegister s2 := by omega
      refine ⟨rfl, ?_⟩
      dsimp only
      rw [e0, e1, e2]
      rfl
    · have henc : encodeInstruction labels ⟨lab, "SUB", [s0, s1, s2], addr⟩ =
          EncResult.ok (3 * 4096 ||| parseRegister s0 * 256 |||
            parseRegister s1 * 16 ||| parseRegister s2) := rfl
      rw [encode_word_4 _ _ _ _ h0 h1 h2] at henc
      refine ⟨_, henc, ?_⟩
      rw [disasm_sub _ a (by omega) (by omega) (by omega)]
      have e0 : (3 * 4096 + parseRegister s0 * 256 + parseRegister s1 * 16 +
          parseRegister s2) / 256 % 16 = parseRegister s0 := by omega
      have e1 : (3 * 4096 + parseRegister s0 * 256 + parseRegister s1 * 16 +
          parseRegister s2) / 16 % 16 = parseRegister s1 := by omega
      have e2 : (3 * 4096 + parseRegister s0 * 256 + parseRegister s1 * 16 +
          parseRegister s2) % 16 = parseRegister s2 := by omega
      refine ⟨rfl, ?_⟩
      dsimp only
      rw [e0, e1, e2]
      rfl
  · -- ADDI / LOADI
    subst hops
    rcases hO with hB | hB <;> subst hB
    · have henc : encodeInstruction labels ⟨lab, "ADDI", [s0, s1], addr⟩ =
          EncResult.ok (2 * 4096 ||| parseRegister s0 * 256 |||
            ((parseImmediate s1) % 256).toNat) := rfl
      rw [encode_word_3 _ _ _ h0 (by omega)] at henc
      refine ⟨_, henc, ?_⟩
      rw [disasm_addi _ a (by omega) (by omega) (by omega)]
      have e0 : (2 * 4096 + parseRegister s0 * 256 +
          ((parseImmediate s1) % 256).toNat) / 256 % 16 = parseRegister s0 := by
        omega
      have e1 : (2 * 4096 + parseRegister s0 * 256 +
          ((parseImmediate s1) % 256).toNat) % 256 =
          (parseImmediate s1).toNat := by omega
      refine ⟨rfl, ?_⟩
      dsimp only
      rw [e0, e1]
      rfl
    · have henc : encodeInstruction labels ⟨lab, "LOADI", [s0, s1], addr⟩ =
          EncResult.ok (12 * 4096 ||| parseRegister s0 * 256 |||
            ((parseImmediate s1) % 256).toNat) := rfl
      rw [encode_word_3 _ _ _ h0 (by omega)] at henc
      refine ⟨_, henc, ?_⟩
      rw [disasm_loadi _ a (by omega) (by omega) (by omega)]
      have e0 : (12 * 4096 + parseRegister s0 * 256 +
          ((parseImmediate s1) % 256).toNat) / 256 % 16 = parseRegister s0 := by
        omega
      have e1 : (12 * 4096 + parseRegister s0 * 256 +
          ((parseImmediate s1) % 256).toNat) % 256 =
          (parseImmediate s1).toNat := by omega
      refine ⟨rfl, ?_⟩
      dsimp only
      rw [e0, e1]
      rfl
  · -- JMP
    subst hO
    subst hops
    have henc : encodeInstruction labels ⟨lab, "JMP", [s0], addr⟩ =
        EncResult.ok (13 * 4096 |||
          ((match lookupStr labels s0 with
            | some labelAddr => labelAddr
            | none => ((parseImmediate s0) % 65536).toNat) % 4096)) := rfl
    have hsrc : sourceOperandText labels ⟨lab, "JMP", [s0], addr⟩ =
        "0x" ++ goHexPad 3
          (match lookupStr labels s0 with
           | some A => A
           | none => (parseImmediate s0).toNat) := rfl
    rcases hcase with ⟨A, hl, hA⟩ | ⟨hl, hj0, hj1⟩
    · rw [hl] at henc
      dsimp only at henc
      rw [encode_word_jmp 13 (A % 4096) (by omega)] at henc
      refine ⟨_, henc, ?_⟩
      rw [disasm_jmp _ a (by omega) (by omega) (by omega)]
      have e0 : (13 * 4096 + A % 4096) % 4096 = A := by omega
      refine ⟨rfl, ?_⟩
      dsimp only
      rw [e0, hsrc, hl]
    · rw [hl] at henc
      dsimp only at henc
      rw [encode_word_jmp 13 (((parseImmediate s0) % 65536).toNat % 4096)
        (by omega)] at henc
      refine ⟨_, henc, ?_⟩
      rw [disasm_jmp _ a (by omega) (by omega) (by omega)]
      have e0 : (13 * 4096 + ((parseImmediate s0) % 65536).toNat % 4096) % 4096 =
          (parseImmediate s0).toNat := by omega
      refine ⟨rfl, ?_⟩
      dsimp only
      rw [e0, hsrc, hl]
  · -- BEQ / BNE
    subst hops
    rcases hO with hB | hB <;> subst hB
    · -- BEQ
      have henc : encodeInstruction labels ⟨lab, "BEQ", [s0, s1], addr⟩ =
          EncResult.ok (14 * 4096 ||| parseRegister s0 * 256 |||
            ((match lookupStr labels s1 with
              | some labelAddr =>
                (((int16Of (u16sub (u16sub labelAddr addr) 2)).tdiv 2) % 65536).toNat
              | none => ((parseImmediate s1) % 65536).toNat) % 256)) := rfl
      have hsrc : sourceOperandText labels ⟨lab, "BEQ", [s0, s1], addr⟩ =
          "R" ++ goHexMin (parseRegister s0) ++ ", " ++
            toString (match lookupStr labels s1 with
              | some A => (int16Of (u16sub (u16sub A addr) 2)).tdiv 2
              | none => parseImmediate s1) := rfl
      rcases hcase with ⟨A, hl, hd⟩ | ⟨hl, hd⟩
      · rw [hl] at henc
        dsimp only at henc
        rw [hd] at henc
        rw [encode_word_3 _ _ _ h0 (by omega)] at henc
        refine ⟨_, henc, ?_⟩
        rw [disasm_beq _ a (by omega) (by omega) (by omega)]
        have e0 : (14 * 4096 + parseRegister s0 * 256 +
            (d % 65536).toNat % 256) / 256 % 16 = parseRegister s0 := by omega
        have e1 : int8Of ((14 * 4096 + parseRegister s0 * 256 +
            (d % 65536).toNat % 256) % 256) = d := by
          simp only [int8Of]
          split <;> omega
        refine ⟨rfl, ?_⟩
        dsimp only
        rw [e0, e1, hsrc, hl]
        dsimp only
        rw [hd]
      · rw [hl] at henc
        dsimp only at henc
        rw [hd] at henc
        rw [encode_word_3 _ _ _ h0 (by omega)] at henc
        refine ⟨_, henc, ?_⟩
        rw [disasm_beq _ a (by omega) (by omega) (by omega)]
        have e0 : (14 * 4096 + parseRegister s0 * 256 +
            (d % 65536).toNat % 256) / 256 % 16 = parseRegister s0 := by omega
        have e1 : int8Of ((14 * 4096 + parseRegister s0 * 256 +
            (d % 65536).toNat % 256) % 256) = d := by
          simp only [int8Of]
          split <;> omega
        refine ⟨rfl, ?_⟩
        dsimp only
        rw [e0, e1, hsrc, hl]
        dsimp only
        rw [hd]
    · -- BNE
      have hne' : ¬(parseRegister s0 = 15 ∧ d = -1) :=
        fun hx => hne ⟨rfl, hx.1, hx.2⟩
      have henc : encodeInstruction labels ⟨lab, "BNE", [s0, s1], addr⟩ =
          EncResult.ok (15 * 4096 ||| parseRegister s0 * 256 |||
            ((match lookupStr labels s1 with
              | some labelAddr =>
                (((int16Of (u16sub (u16sub labelAddr addr) 2)).tdiv 2) % 65536).toNat
              | none => ((parseImmediate s1) % 65536).toNat) % 256)) := rfl
      have hsrc : sourceOperandText labels ⟨lab, "BNE", [s0, s1], addr⟩ =
          "R" ++ goHexMin (parseRegister s0) ++ ", " ++
            toString (match lookupStr labels s1 with
              | some A => (int16Of (u16sub (u16sub A addr) 2)).tdiv 2
              | none => parseImmediate s1) := rfl
      rcases hcase with ⟨A, hl, hd⟩ | ⟨hl, hd⟩
      · rw [hl] at henc
        dsimp only at henc
        rw [hd] at henc
        rw [encode_word_3 _ _ _ h0 (by omega)] at henc
        refine ⟨_, henc, ?_⟩
        have hFne : 15 * 4096 + parseRegister s0 * 256 +
            (d % 65536).toNat % 256 ≠ 65535 := by
          by_cases hp : parseRegister s0 = 15
          · have hdne : d ≠ -1 := fun hx => hne' ⟨hp, hx⟩
            omega
          · omega
        rw [disasm_bne _ a (by omega) hFne (by omega)]
        have e0 : (15 * 4096 + parseRegister s0 * 256 +
            (d % 65536).toNat % 256) / 256 % 16 = parseRegister s0 := by omega
        have e1 : int8Of ((15 * 4096 + parseRegister s0 * 256 +
            (d % 65536).toNat % 256) % 256) = d := by
          simp only [int8Of]
          split <;> omega
        refine ⟨rfl, ?_⟩
        dsimp only
        rw [e0, e1, hsrc, hl]
        dsimp only
        rw [hd]
      · rw [hl] at henc
        dsimp only at henc
        rw [hd] at henc
        rw [encode_word_3 _ _ _ h0 (by omega)] at henc
        refine ⟨_, henc, ?_⟩
        have hFne : 15 * 4096 + parseRegister s0 * 256 +
            (d % 65536).toNat % 256 ≠ 65535 := by
          by_cases hp : parseRegister s0 = 15
          · have hdne : d ≠ -1 := fun hx => hne' ⟨hp, hx⟩
            omega
          · omega
        rw [disasm_bne _ a (by omega) hFne (by omega)]
        have e0 : (15 * 4096 + parseRegister s0 * 256 +
            (d % 65536).toNat % 256) / 256 % 16 = parseRegister s0 := by omega
        have e1 : int8Of ((15 * 4096 + parseRegister s0 * 256 +
            (d % 65536).toNat % 256) % 256) = d := by
          simp only [int8Of]
          split <;> omega
        refine ⟨rfl, ?_⟩
        dsimp only
        rw [e0, e1, hsrc, hl]
        dsimp only
        rw [hd]

/-- The record form of `ADD R1, R2, R3`. -/
def claim1wInstr : AsmInstr :=
  { Label := "", Opcode := "ADD", Operands := ["R1", "R2", "R3"], Address := 0 }

/-- C1, witness: `ADD R1, R2, R3` round-trips. -/
theorem claim1_roundtrip_witness :
    ∃ w, encodeInstruction [] claim1wInstr = EncResult.ok w ∧
      (disassembleInstruction w 0).Mnemonic = claim1wInstr.Opcode ∧
      (disassembleInstruction w 0).Operands = sourceOperandText [] claim1wInstr :=
  claim1_roundtrip_amended [] claim1wInstr 0
    (Or.inr (Or.inr (Or.inl ⟨Or.inl rfl, "R1", "R2", "R3", rfl,
      by decide, by decide, by decide⟩)))

end Simulator
